import Mathlib

/-!
Shallow embedding of the langevinMD molecular-dynamics package.

Numeric code operating on IEEE doubles is modelled over the rationals `ℚ`
(exact real arithmetic); `numpy` arrays of shape (natoms, ndims) become
`List (List ℚ)` (one inner list per particle), per-axis box bounds become
`List (ℚ × ℚ)`.  Fallible Python code (raising `ValueError` /
`ZeroDivisionError`) is modelled with `Except String`.

Sources embedded: `src/boundary.py`, `src/integrators.py`,
`src/utils/analysis.py`, `src/simulation.py`, `src/io/config_loader.py`,
`src/constants.py`, `src/io/lammps_writer.py`.
-/

namespace LangevinMD

/-- Physical constant `AVOGADRO = 6.02214086e23` from `src/constants.py`. -/
def AVOGADRO : ℚ := 602214086 * 10 ^ 15

/-- Physical constant `BOLTZMANN = 1.38064852e-23` from `src/constants.py`. -/
def BOLTZMANN : ℚ := 138064852 / 10 ^ 31

/-! ## Boundary conditions (`src/boundary.py`) -/

/-- One particle / one axis of `ReflectiveBoundary.apply` (boundary.py lines
60-69).  The source loops over axes; for each axis it first handles the
lower-bound mask (`pos <= lo`: velocity becomes `abs`, position is clamped to
`lo`), then re-reads the updated position for the upper-bound mask
(`pos >= hi`: velocity becomes `-abs`, position clamped to `hi`).  Each
(particle, axis) cell is updated independently of the others, so the
vectorised masks are exactly this scalar function applied cellwise. -/
def reflectComp (lo hi p v : ℚ) : ℚ × ℚ :=
  let l := if p ≤ lo then (lo, |v|) else (p, v)
  if hi ≤ l.1 then (hi, -|l.2|) else l

/-- `ReflectiveBoundary.apply` on one particle row: fold `reflectComp` over
the axes of the box, paired with the row's position/velocity components. -/
def reflectRows : List (ℚ × ℚ) → List ℚ → List ℚ → List ℚ × List ℚ
  | (lo, hi) :: bs, p :: ps, v :: vs =>
    let c := reflectComp lo hi p v
    let r := reflectRows bs ps vs
    (c.1 :: r.1, c.2 :: r.2)
  | _, _, _ => ([], [])

/-- `ReflectiveBoundary.apply` (boundary.py lines 46-69): positions and
velocities of every particle, all axes.  The Python version mutates the
arrays in place; here the updated pair is returned. -/
def applyReflective (box : List (ℚ × ℚ)) (pos vels : List (List ℚ)) :
    List (List ℚ) × List (List ℚ) :=
  ((pos.zip vels).map fun r => (reflectRows box r.1 r.2).1,
   (pos.zip vels).map fun r => (reflectRows box r.1 r.2).2)

/-- Python float `%`: `a % b = a - b * floor (a / b)` (result has the sign of
the divisor; for `b > 0` it lies in `[0, b)`).  numpy's `%` on floats follows
the same convention.  (For `b = 0` numpy returns NaN; this model is only used
with `b > 0`.) -/
def pymod (a b : ℚ) : ℚ := a - b * (⌊a / b⌋ : ℚ)

/-- One axis of `PeriodicBoundary.apply` (boundary.py lines 92-96):
`pos = lo + (pos - lo) % (hi - lo)`. -/
def periodicComp (lo hi p : ℚ) : ℚ := lo + pymod (p - lo) (hi - lo)

/-- `PeriodicBoundary.apply` on one particle row (positions only; the
source never touches velocities). -/
def periodicRow : List (ℚ × ℚ) → List ℚ → List ℚ
  | (lo, hi) :: bs, p :: ps => periodicComp lo hi p :: periodicRow bs ps
  | _, _ => []

/-- `PeriodicBoundary.apply` (boundary.py lines 79-96): wraps every position
component; the velocity array is returned exactly as given, since the source
loop only assigns to `pos`. -/
def applyPeriodic (box : List (ℚ × ℚ)) (pos vels : List (List ℚ)) :
    List (List ℚ) × List (List ℚ) :=
  (pos.map fun p => periodicRow box p, vels)

/-- Boundary objects produced by the factory in `src/boundary.py`. -/
inductive Boundary : Type
  | reflective (box : List (ℚ × ℚ))
  | periodic (box : List (ℚ × ℚ))
deriving DecidableEq, Repr

/-- Python `str.lower()`, modelled as per-character lowercasing of the
string's character list. -/
def pyLower (s : String) : String := String.mk (s.data.map Char.toLower)

/-- `create_boundary` (boundary.py lines 99-129): dictionary lookup on the
lower-cased name; unknown names raise `ValueError` with a message listing the
available types (the Python `repr` of the key list, here rendered without
quote characters). -/
def create_boundary (boundary_type : String) (box : List (ℚ × ℚ)) :
    Except String Boundary :=
  if pyLower boundary_type = "reflective" then
    Except.ok (Boundary.reflective box)
  else if pyLower boundary_type = "periodic" then
    Except.ok (Boundary.periodic box)
  else
    Except.error ("Unknown boundary type: " ++ boundary_type ++
      ". Available types: [reflective, periodic]")

/-! ## Integrator (`src/integrators.py`) -/

/-- `euler_integrate` (integrators.py lines 8-40).  In the source the arrays
are mutated in place; here the updated `(pos, vels)` pair is returned.  The
position update `pos += vels * dt` executes before the velocity update
`vels += force * dt / mass[:, np.newaxis]`, so positions advance with the
pre-update velocities. -/
def euler_integrate (pos vels force : List (List ℚ)) (mass : List ℚ)
    (dt : ℚ) : List (List ℚ) × List (List ℚ) :=
  (List.zipWith (fun p v => List.zipWith (fun pc vc => pc + vc * dt) p v)
      pos vels,
   List.zipWith (fun vf m => List.zipWith (fun vc fc => vc + fc * dt / m)
      vf.1 vf.2) (vels.zip force) mass)

/-- The integrator contract exactly as the specification words it:
`position += velocity * dt`; `velocity += (force / mass) * dt`.  Stated
separately from `euler_integrate` (which follows the source's
`force * dt / mass` grouping) so the two can be compared. -/
def eulerSpec (pos vels force : List (List ℚ)) (mass : List ℚ)
    (dt : ℚ) : List (List ℚ) × List (List ℚ) :=
  (List.zipWith (fun p v => List.zipWith (fun pc vc => pc + vc * dt) p v)
      pos vels,
   List.zipWith (fun vf m => List.zipWith (fun vc fc => vc + fc / m * dt)
      vf.1 vf.2) (vels.zip force) mass)

/-- All entries of an (natoms, ndims) array are zero. -/
def AllZero (a : List (List ℚ)) : Prop := ∀ r ∈ a, ∀ x ∈ r, x = 0

/-! ## Observables (`src/utils/analysis.py`) -/

/-- `compute_kinetic_energy` (analysis.py lines 45-61):
`0.5 * np.sum(mass[:, np.newaxis] * vels**2)`. -/
def compute_kinetic_energy (mass : List ℚ) (vels : List (List ℚ)) : ℚ :=
  (1 / 2) *
    (List.zipWith (fun m row => m * (row.map fun x => x ^ 2).sum) mass vels).sum

/-- `compute_temperature` (analysis.py lines 9-42) for an `N × D` velocity
array, indexed by `Fin` so the per-axis mean is a plain `Finset` sum.
`v_cm = np.mean(vels, axis=0)` is the unweighted arithmetic mean over
particles; `ke = 0.5 * np.sum(mass[:, np.newaxis] * v_rel**2)`;
`temperature = 2.0 * ke / (ndims * natoms * BOLTZMANN)`. -/
def compute_temperature {N D : ℕ} (mass : Fin N → ℚ)
    (vels : Fin N → Fin D → ℚ) : ℚ :=
  let v_cm : Fin D → ℚ := fun j => (∑ i, vels i j) / (N : ℚ)
  let ke : ℚ := (1 / 2) * ∑ i, ∑ j, mass i * (vels i j - v_cm j) ^ 2
  2 * ke / ((D : ℚ) * (N : ℚ) * BOLTZMANN)

/-- Modelled from the spec for refinement comparison with
`compute_temperature`: the same equipartition formula but with `v_cm` the
MASS-WEIGHTED mean velocity (the specification's definition of
center-of-mass velocity). -/
def temperatureSpecWeighted {N D : ℕ} (mass : Fin N → ℚ)
    (vels : Fin N → Fin D → ℚ) : ℚ :=
  let v_cm : Fin D → ℚ := fun j => (∑ i, mass i * vels i j) / (∑ i, mass i)
  let ke : ℚ := (1 / 2) * ∑ i, ∑ j, mass i * (vels i j - v_cm j) ^ 2
  2 * ke / ((D : ℚ) * (N : ℚ) * BOLTZMANN)

/-! ## Simulation driver (`src/simulation.py`) -/

/-- Mutable particle state owned by `LangevinSimulation`. -/
structure SimState : Type where
  pos : List (List ℚ)
  vels : List (List ℚ)
deriving DecidableEq, Repr

/-- `LangevinSimulation.step` (simulation.py lines 94-109) with
`boundary_type = reflective`.  The Langevin force is stochastic, so the force
array produced by `compute_langevin_force` is taken as an input; the step is
Euler integration followed by the reflective boundary. -/
def stepReflective (box : List (ℚ × ℚ)) (mass : List ℚ) (dt : ℚ)
    (force : List (List ℚ)) (s : SimState) : SimState :=
  let e := euler_integrate s.pos s.vels force mass dt
  let b := applyReflective box e.1 e.2
  ⟨b.1, b.2⟩

/-- Every in-range component of every particle position lies inside the box:
`box.zip row` pairs each axis bound with the corresponding component. -/
def inBox (box : List (ℚ × ℚ)) (pos : List (List ℚ)) : Prop :=
  ∀ row ∈ pos, ∀ c ∈ box.zip row, c.1.1 ≤ c.2 ∧ c.2 ≤ c.1.2

instance (box : List (ℚ × ℚ)) (pos : List (List ℚ)) :
    Decidable (inBox box pos) := by
  unfold inBox; infer_instance

/-- The `(time, temperature)` samples accumulated by
`LangevinSimulation.run` in `self.trajectory`. -/
structure Trajectory : Type where
  time : List ℚ
  temperature : List ℚ
deriving DecidableEq, Repr

/-- The main loop of `LangevinSimulation.run` (simulation.py lines 144-155):
`for step in range(1, nsteps + 1)` perform `self.step()`, then append
`step * dt` to `trajectory[time]` and the computed temperature to
`trajectory[temperature]`.  One force array is consumed per step (the
stochastic forces are inputs), `k` is the number of steps already taken, so
the Python loop variable `step` is `k + 1`.  Frame dumping and the verbose
progress print (lines 156-171) are modelled separately. -/
def runLoop (stepF : List (List ℚ) → SimState → SimState)
    (tempF : SimState → ℚ) (dt : ℚ) :
    List (List (List ℚ)) → ℕ → SimState → Trajectory → SimState × Trajectory
  | [], _, s, tr => (s, tr)
  | f :: fs, k, s, tr =>
    let s2 := stepF f s
    runLoop stepF tempF dt fs (k + 1) s2
      ⟨tr.time ++ [((k + 1 : ℕ) : ℚ) * dt],
       tr.temperature ++ [tempF s2]⟩

/-- `LangevinSimulation.run` on a freshly constructed simulation
(`self.trajectory` starts with empty lists): run one step per force array,
starting the 1-based step counter at 1. -/
def run (stepF : List (List ℚ) → SimState → SimState)
    (tempF : SimState → ℚ) (dt : ℚ) (fs : List (List (List ℚ)))
    (s : SimState) : SimState × Trajectory :=
  runLoop stepF tempF dt fs 0 s ⟨[], []⟩

/-- The verbose progress-checkpoint test of `LangevinSimulation.run`
(simulation.py line 168): `step % (nsteps // 10) == 0`.  Python integer `%`
raises `ZeroDivisionError` when the divisor is zero; `nsteps // 10` is `ℕ`
floor division. -/
def verboseCheckpoint (nsteps step : ℕ) : Except String Bool :=
  if nsteps / 10 = 0 then
    Except.error "ZeroDivisionError: integer division or modulo by zero"
  else
    Except.ok (decide (step % (nsteps / 10) = 0))

/-- `mass_per_particle` computed by `LangevinSimulation.__init__`
(simulation.py line 58): `mass / AVOGADRO`. -/
def mass_per_particle (mass : ℚ) : ℚ := mass / AVOGADRO

/-- `LangevinSimulation._initialize_system` (simulation.py lines 80-92),
with the random draws as inputs: `posSeed` stands for
`np.random.rand(natoms, ndims)` (uniform in [0,1]) and `velSeed` for
`np.random.randn(natoms, ndims)`.  Positions are scaled per axis into the
box; velocities get the per-axis mean over particles subtracted.  No
validation of any kind is performed. -/
def initSystem (box : List (ℚ × ℚ)) (posSeed velSeed : List (List ℚ)) :
    SimState :=
  let n : ℚ := (velSeed.length : ℚ)
  let meanAxis : ℕ → ℚ := fun j =>
    ((velSeed.map fun row => row.getD j 0).sum) / n
  ⟨posSeed.map fun row =>
      List.zipWith (fun b u => b.1 + (b.2 - b.1) * u) box row,
   velSeed.map fun row =>
      (List.range row.length).map fun j => row.getD j 0 - meanAxis j⟩

/-! ## Configuration validation (`src/io/config_loader.py`) -/

/-- A configuration dictionary restricted to the keys `validate_config`
inspects; `none` models an absent key. -/
structure Config : Type where
  natoms : Option ℤ
  mass : Option ℚ
  temperature : Option ℚ
  dt : Option ℚ
  relaxation_time : Option ℚ
  nsteps : Option ℤ
  box : Option (List (ℚ × ℚ))
deriving DecidableEq

/-- `validate_config` (config_loader.py lines 29-57): require the seven keys
to be present, then check `natoms > 0`, `temperature >= 0`, `dt > 0`.  Note
that the box bounds themselves are never inspected. -/
def validate_config (c : Config) : Except String Unit :=
  if c.natoms = none then
    Except.error "Required parameter natoms missing from config"
  else if c.mass = none then
    Except.error "Required parameter mass missing from config"
  else if c.temperature = none then
    Except.error "Required parameter temperature missing from config"
  else if c.dt = none then
    Except.error "Required parameter dt missing from config"
  else if c.relaxation_time = none then
    Except.error "Required parameter relaxation_time missing from config"
  else if c.nsteps = none then
    Except.error "Required parameter nsteps missing from config"
  else if c.box = none then
    Except.error "Required parameter box missing from config"
  else if c.natoms.getD 0 ≤ 0 then
    Except.error "natoms must be positive"
  else if c.temperature.getD 0 < 0 then
    Except.error "temperature cannot be negative"
  else if c.dt.getD 0 ≤ 0 then
    Except.error "dt must be positive"
  else
    Except.ok ()

/-- A concrete configuration whose box has an inverted axis (min = 1 > 0 =
max) but which is otherwise well-formed: all seven required keys present,
`natoms = 100 > 0`, `temperature = 300 >= 0`, `dt = 1 > 0`. -/
def badBoxConfig : Config :=
  ⟨some 100, some 1, some 300, some 1, some 1, some 1000, some [(1, 0)]⟩

/-! ## Output-file effect of `run` (`src/simulation.py` lines 135-141 and
`src/io/lammps_writer.py`) -/

/-- Contents of the dump file: `none` models a non-existent file, `some l`
a file holding the list of frames `l` (frames abstracted to any type). -/
def FileState (α : Type) : Type := Option (List α)

/-- The `os.path.exists` / `os.remove` prelude of `run` (simulation.py lines
138-140): delete the old file if it exists. -/
def removeIfExists {α : Type} : FileState α → FileState α := fun _ => none

/-- `LAMMPSWriter.write_frame` (lammps_writer.py line 52 opens the file in
append mode): append one frame block to the file, creating it if absent. -/
def writeFrameTo {α : Type} (f : FileState α) (fr : α) : FileState α :=
  some ((f.getD []) ++ [fr])

/-- The net effect of `run` on the dump file: remove any pre-existing file,
then append the run's frames one at a time. -/
def runDumpEffect {α : Type} (prior : FileState α) (frames : List α) :
    FileState α :=
  frames.foldl writeFrameTo (removeIfExists prior)

/-! ## Theorems -/

/-- Helper: the position produced by `reflectComp` lies in `[lo, hi]`
whenever `lo ≤ hi`, for every input position and velocity. -/
theorem reflectComp_fst_mem (lo hi p v : ℚ) (h : lo ≤ hi) :
    lo ≤ (reflectComp lo hi p v).1 ∧ (reflectComp lo hi p v).1 ≤ hi := by
  by_cases h1 : p ≤ lo
  · have hc : reflectComp lo hi p v =
        if hi ≤ lo then (hi, -|v|) else (lo, |v|) := by
      simp [reflectComp, h1]
    rw [hc]
    split_ifs with h2
    · exact ⟨h, le_refl hi⟩
    · exact ⟨le_refl lo, h⟩
  · have hc : reflectComp lo hi p v =
        if hi ≤ p then (hi, -|v|) else (p, v) := by
      simp [reflectComp, h1]
    rw [hc]
    split_ifs with h2
    · exact ⟨h, le_refl hi⟩
    · exact ⟨le_of_lt (not_le.mp h1), le_of_lt (not_le.mp h2)⟩

/-- C2: reflective boundary postconditions per axis.  If the box axis is
proper (`lo < hi`, the SimulationBox invariant) then a position at or below
the lower bound comes out exactly at the lower bound with nonnegative
velocity, and a position at or above the upper bound comes out exactly at
the upper bound with nonpositive velocity. -/
theorem reflective_postconditions (lo hi p v : ℚ) (hlt : lo < hi) :
    (p ≤ lo → (reflectComp lo hi p v).1 = lo ∧ 0 ≤ (reflectComp lo hi p v).2) ∧
    (hi ≤ p → (reflectComp lo hi p v).1 = hi ∧ (reflectComp lo hi p v).2 ≤ 0) := by
  constructor
  · intro hp
    have h2 : ¬ hi ≤ lo := not_le.mpr hlt
    simp [reflectComp, hp, h2, abs_nonneg]
  · intro hp
    have h1 : ¬ p ≤ lo := not_le.mpr (lt_of_lt_of_le hlt hp)
    simp [reflectComp, h1, hp, neg_nonpos, abs_nonneg]

/-- Witness for C2 at `lo = 0`, `hi = 1`, `p = -1`, `v = -2`: the particle
below the lower bound is clamped to 0 with nonnegative velocity. -/
theorem reflective_postconditions_witness :
    (0 : ℚ) < 1 ∧ (-1 : ℚ) ≤ 0 ∧
    ((reflectComp 0 1 (-1) (-2)).1 = 0 ∧ 0 ≤ (reflectComp 0 1 (-1) (-2)).2) :=
  ⟨by norm_num, by norm_num,
   (reflective_postconditions 0 1 (-1) (-2) (by norm_num)).1 (by norm_num)⟩

/-- Helper: Python float `%` with a positive divisor lands in `[0, b)`. -/
theorem pymod_mem (a b : ℚ) (hb : 0 < b) : 0 ≤ pymod a b ∧ pymod a b < b := by
  have hb0 : b ≠ 0 := ne_of_gt hb
  have hfr : pymod a b = b * Int.fract (a / b) := by
    unfold pymod Int.fract
    rw [mul_sub, mul_comm b (a / b), div_mul_cancel₀ a hb0]
  constructor
  · rw [hfr]
    exact mul_nonneg (le_of_lt hb) (Int.fract_nonneg _)
  · rw [hfr]
    calc b * Int.fract (a / b) < b * 1 :=
          (mul_lt_mul_left hb).mpr (Int.fract_lt_one _)
      _ = b := mul_one b

/-- C3: periodic boundary postconditions.  `PeriodicBoundary.apply` leaves
the velocity array untouched, and on every proper axis (`lo < hi`) the
wrapped position is exactly `lo + ((p - lo) mod (hi - lo))`, which lies in
`[lo, hi)`. -/
theorem periodic_postconditions (box : List (ℚ × ℚ))
    (pos vels : List (List ℚ)) :
    (applyPeriodic box pos vels).2 = vels ∧
    ∀ lo hi p : ℚ, lo < hi →
      (periodicComp lo hi p = lo + pymod (p - lo) (hi - lo) ∧
       lo ≤ periodicComp lo hi p ∧ periodicComp lo hi p < hi) := by
  refine ⟨rfl, ?_⟩
  intro lo hi p hlt
  have hb : 0 < hi - lo := sub_pos.mpr hlt
  obtain ⟨h0, h1⟩ := pymod_mem (p - lo) (hi - lo) hb
  refine ⟨rfl, ?_, ?_⟩
  · unfold periodicComp
    linarith
  · unfold periodicComp
    linarith

/-- Witness for C3 at box `[(0, 1)]`, one particle, `p = 7/2` (which wraps
to `1/2`). -/
theorem periodic_postconditions_witness :
    (applyPeriodic [((0 : ℚ), 1)] [[7 / 2]] [[5]]).2 = [[5]] ∧
    ((0 : ℚ) < 1 ∧
      (periodicComp 0 1 (7 / 2) = 0 + pymod (7 / 2 - 0) (1 - 0) ∧
       0 ≤ periodicComp 0 1 (7 / 2) ∧ periodicComp 0 1 (7 / 2) < 1)) :=
  ⟨(periodic_postconditions [((0 : ℚ), 1)] [[7 / 2]] [[5]]).1,
   by norm_num,
   (periodic_postconditions [((0 : ℚ), 1)] [[7 / 2]] [[5]]).2 0 1 (7 / 2)
     (by norm_num)⟩

/-- Helper: every in-range component of a row processed by `reflectRows`
lies inside its axis bounds. -/
theorem reflectRows_mem (box : List (ℚ × ℚ)) (p v : List ℚ)
    (hbox : ∀ b ∈ box, b.1 ≤ b.2) :
    ∀ c ∈ box.zip (reflectRows box p v).1, c.1.1 ≤ c.2 ∧ c.2 ≤ c.1.2 := by
  induction box generalizing p v with
  | nil => simp
  | cons b bs ih =>
    obtain ⟨lo, hi⟩ := b
    cases p with
    | nil => simp [reflectRows]
    | cons pc ps =>
      cases v with
      | nil => simp [reflectRows]
      | cons vc vs =>
        intro c hc
        simp only [reflectRows, List.zip_cons_cons, List.mem_cons] at hc
        rcases hc with rfl | hc
        · exact reflectComp_fst_mem lo hi pc vc (hbox (lo, hi) (by simp))
        · exact ih ps vs (fun b hb => hbox b (List.mem_cons_of_mem _ hb)) c hc

/-- Helper: the position array returned by `applyReflective` is inside the
box whenever every axis satisfies `lo ≤ hi`. -/
theorem applyReflective_inBox (box : List (ℚ × ℚ))
    (hbox : ∀ b ∈ box, b.1 ≤ b.2) (pos vels : List (List ℚ)) :
    inBox box (applyReflective box pos vels).1 := by
  intro row hrow
  simp only [applyReflective, List.mem_map] at hrow
  obtain ⟨ab, _, rfl⟩ := hrow
  exact reflectRows_mem box ab.1 ab.2 hbox

/-- C1: with reflective boundaries every particle position stays inside the
box.  For any box whose axes satisfy the SimulationBox invariant `lo < hi`,
the state after any single `step` (arbitrary stochastic force, arbitrary
incoming state) is inside the box, and hence so is the state after every
step of `run` (any nonempty prefix of the force sequence). -/
theorem reflective_stays_in_box (box : List (ℚ × ℚ)) (mass : List ℚ)
    (dt : ℚ) (hbox : ∀ b ∈ box, b.1 < b.2) :
    (∀ (force : List (List ℚ)) (s : SimState),
      inBox box (stepReflective box mass dt force s).pos) ∧
    (∀ (s : SimState) (fs : List (List (List ℚ))) (f : List (List ℚ)),
      inBox box (((fs ++ [f]).foldl
        (fun st fo => stepReflective box mass dt fo st) s).pos)) := by
  have hle : ∀ b ∈ box, b.1 ≤ b.2 := fun b hb => le_of_lt (hbox b hb)
  have h1 : ∀ (force : List (List ℚ)) (s : SimState),
      inBox box (stepReflective box mass dt force s).pos := by
    intro force s
    simp only [stepReflective]
    exact applyReflective_inBox box hle _ _
  refine ⟨h1, ?_⟩
  intro s fs f
  rw [List.foldl_append, List.foldl_cons, List.foldl_nil]
  exact h1 f _

/-- Witness for C1: box `[(0, 1)]`, unit mass, `dt = 1`, one step from a
state that starts far outside the box with outward velocity. -/
theorem reflective_stays_in_box_witness :
    (∀ b ∈ [((0 : ℚ), (1 : ℚ))], b.1 < b.2) ∧
    inBox [((0 : ℚ), 1)]
      (stepReflective [((0 : ℚ), 1)] [1] 1 [[0]] ⟨[[5]], [[2]]⟩).pos :=
  ⟨by norm_num,
   (reflective_stays_in_box [((0 : ℚ), 1)] [1] 1 (by norm_num)).1
     [[0]] ⟨[[5]], [[2]]⟩⟩

/-- Helper: adding a zero force row changes no velocity component. -/
theorem zipWith_add_zero_force (dt m : ℚ) (v f : List ℚ)
    (hlen : v.length = f.length) (hz : ∀ x ∈ f, x = 0) :
    List.zipWith (fun vc fc => vc + fc * dt / m) v f = v := by
  induction v generalizing f with
  | nil => simp
  | cons vc vs ih =>
    cases f with
    | nil => simp at hlen
    | cons fc fs =>
      have h0 : fc = 0 := hz fc (by simp)
      have hrest : ∀ x ∈ fs, x = 0 := fun x hx => hz x (by simp [hx])
      simp only [List.zipWith_cons_cons, h0, zero_mul, zero_div, add_zero]
      rw [ih fs (by simpa using hlen) hrest]

/-- Helper: with an all-zero force of the same shape as the velocities (and
masses covering every particle), the Euler velocity update is the identity. -/
theorem euler_integrate_zero_force (pos vels force : List (List ℚ))
    (mass : List ℚ) (dt : ℚ) (hz : AllZero force)
    (hshape : List.Forall₂ (fun v f => v.length = f.length) vels force)
    (hm : vels.length ≤ mass.length) :
    (euler_integrate pos vels force mass dt).2 = vels := by
  simp only [euler_integrate]
  induction hshape generalizing mass with
  | nil => simp
  | cons hvf htail ih =>
    rename_i v f vs fsl
    cases mass with
    | nil => simp at hm
    | cons m ms =>
      simp only [List.zip_cons_cons, List.zipWith_cons_cons]
      rw [zipWith_add_zero_force dt m v f hvf (fun x hx => hz f (by simp) x hx),
        ih ms (fun r hr => hz r (List.mem_cons_of_mem _ hr))
          (by simpa using Nat.le_of_succ_le_succ hm)]

/-- C4: `euler_integrate` coincides with the integrator contract as worded
in the specification (`position += velocity * dt` with the pre-update
velocity, `velocity += (force / mass) * dt`), and with an all-zero force of
the velocities' shape the velocity array — and hence the kinetic energy —
is exactly unchanged. -/
theorem euler_integrate_contract (pos vels force : List (List ℚ))
    (mass : List ℚ) (dt : ℚ) :
    euler_integrate pos vels force mass dt = eulerSpec pos vels force mass dt ∧
    (AllZero force →
      List.Forall₂ (fun v f => v.length = f.length) vels force →
      vels.length ≤ mass.length →
      (euler_integrate pos vels force mass dt).2 = vels ∧
      compute_kinetic_energy mass (euler_integrate pos vels force mass dt).2 =
        compute_kinetic_energy mass vels) := by
  constructor
  · have hfun : (fun (vf : List ℚ × List ℚ) (m : ℚ) =>
        List.zipWith (fun vc fc => vc + fc * dt / m) vf.1 vf.2) =
        (fun (vf : List ℚ × List ℚ) (m : ℚ) =>
        List.zipWith (fun vc fc => vc + fc / m * dt) vf.1 vf.2) := by
      funext vf m
      congr 1
      funext vc fc
      rw [div_mul_eq_mul_div]
    simp only [euler_integrate, eulerSpec, hfun]
  · intro hz hshape hm
    have hv := euler_integrate_zero_force pos vels force mass dt hz hshape hm
    exact ⟨hv, by rw [hv]⟩

/-- Witness for C4: one particle, one dimension, zero force. -/
theorem euler_integrate_contract_witness :
    AllZero [[0]] ∧
    List.Forall₂ (fun (v f : List ℚ) => v.length = f.length) [[3]] [[0]] ∧
    ([([3] : List ℚ)].length ≤ [(2 : ℚ)].length) ∧
    ((euler_integrate [[5]] [[3]] [[0]] [2] 7).2 = [[3]] ∧
      compute_kinetic_energy [2] (euler_integrate [[5]] [[3]] [[0]] [2] 7).2 =
        compute_kinetic_energy [2] [[3]]) :=
  ⟨by intro r hr x hx; simp at hr; simp [hr] at hx; exact hx,
   List.Forall₂.cons (by simp) List.Forall₂.nil,
   by simp,
   (euler_integrate_contract [[5]] [[3]] [[0]] [2] 7).2
     (by intro r hr x hx; simp at hr; simp [hr] at hx; exact hx)
     (List.Forall₂.cons (by simp) List.Forall₂.nil)
     (by simp)⟩

/-- C5 fails as stated: with non-uniform masses (`mass = [1, 3]`, 1-D
velocities `[[0], [1]]`) the temperature computed by the source (unweighted
`np.mean` center-of-mass velocity) differs from the claimed formula built on
the MASS-WEIGHTED mean velocity.  The code yields `2·KE/(D·N·k_B)` with
`KE = 1/2`, the claim demands `KE = 3/8`. -/
theorem compute_temperature_not_mass_weighted :
    compute_temperature (N := 2) (D := 1) ![1, 3] ![![0], ![1]] ≠
    temperatureSpecWeighted (N := 2) (D := 1) ![1, 3] ![![0], ![1]] := by
  simp only [compute_temperature, temperatureSpecWeighted, Fin.sum_univ_two,
    Fin.sum_univ_one, Matrix.cons_val_zero, Matrix.cons_val_one,
    Matrix.head_cons, BOLTZMANN]
  norm_num

/-- C5 amended: `compute_temperature` returns `2·KE/(D·N·k_B)` with `KE`
computed against the UNWEIGHTED mean velocity; this agrees with the claimed
mass-weighted formula exactly when all particle masses are equal (which is
how the simulation always calls it — `mass = ones * mass_per_particle`). -/
theorem compute_temperature_eq_weighted_of_equal_mass {N D : ℕ}
    (mass : Fin N → ℚ) (vels : Fin N → Fin D → ℚ) (c : ℚ) (hc : 0 < c)
    (hm : ∀ i, mass i = c) :
    compute_temperature mass vels = temperatureSpecWeighted mass vels := by
  have hvcm : ∀ j : Fin D,
      (∑ i, mass i * vels i j) / (∑ i, mass i) = (∑ i, vels i j) / (N : ℚ) := by
    intro j
    simp only [hm]
    rw [← Finset.mul_sum, Finset.sum_const, Finset.card_univ, Fintype.card_fin,
      nsmul_eq_mul, mul_comm ((N : ℚ)) c, mul_div_mul_left _ _ (ne_of_gt hc)]
  simp only [compute_temperature, temperatureSpecWeighted, hvcm]

/-- Witness for amended C5: two particles of equal mass 5, 1-D. -/
theorem compute_temperature_equal_mass_witness :
    (0 : ℚ) < 5 ∧ (∀ i : Fin 2, (![5, 5] : Fin 2 → ℚ) i = 5) ∧
    compute_temperature (N := 2) (D := 1) ![5, 5] ![![1], ![2]] =
      temperatureSpecWeighted (N := 2) (D := 1) ![5, 5] ![![1], ![2]] :=
  ⟨by norm_num,
   fun i => by fin_cases i <;> simp,
   compute_temperature_eq_weighted_of_equal_mass ![5, 5] ![![1], ![2]] 5
     (by norm_num) (fun i => by fin_cases i <;> simp)⟩

/-- Helper: closed form for the trajectory built by `runLoop` starting at
step counter `k`: times `(k+1)·dt, (k+2)·dt, …` are appended to the incoming
time list, and exactly one temperature sample is appended per step. -/
theorem runLoop_spec (stepF : List (List ℚ) → SimState → SimState)
    (tempF : SimState → ℚ) (dt : ℚ) (fs : List (List (List ℚ))) :
    ∀ (k : ℕ) (s : SimState) (tr : Trajectory),
      (runLoop stepF tempF dt fs k s tr).2.time =
        tr.time ++ (List.range fs.length).map
          (fun i => ((k + i + 1 : ℕ) : ℚ) * dt) ∧
      (runLoop stepF tempF dt fs k s tr).2.temperature.length =
        tr.temperature.length + fs.length := by
  induction fs with
  | nil =>
    intro k s tr
    simp [runLoop]
  | cons f fs ih =>
    intro k s tr
    simp only [runLoop]
    obtain ⟨h1, h2⟩ := ih (k + 1) (stepF f s)
      ⟨tr.time ++ [((k + 1 : ℕ) : ℚ) * dt], tr.temperature ++ [tempF (stepF f s)]⟩
    refine ⟨?_, ?_⟩
    · rw [h1]
      have hmap : (List.range fs.length).map
          ((fun i => ((k + i + 1 : ℕ) : ℚ) * dt) ∘ Nat.succ) =
          (List.range fs.length).map
            (fun i => ((k + 1 + i + 1 : ℕ) : ℚ) * dt) :=
        List.map_congr_left (fun a _ => by
          simp only [Function.comp_apply]
          push_cast
          ring)
      simp only [List.length_cons, List.range_succ_eq_map, List.map_cons,
        List.map_map, hmap, List.append_assoc, List.singleton_append,
        Nat.add_zero]
    · rw [h2]
      simp
      omega

/-- C6: on a fresh simulation, `run` over `nsteps = fs.length` force draws
produces a time sequence of exactly `nsteps` entries whose k-th entry
(1-based) is `k·dt`; for `dt > 0` the times are strictly increasing and
consecutive entries differ by exactly `dt`, and exactly one temperature
sample is recorded per step. -/
theorem run_trajectory (stepF : List (List ℚ) → SimState → SimState)
    (tempF : SimState → ℚ) (dt : ℚ) (fs : List (List (List ℚ)))
    (s : SimState) (hdt : 0 < dt) :
    (run stepF tempF dt fs s).2.time =
      (List.range fs.length).map (fun i => ((i + 1 : ℕ) : ℚ) * dt) ∧
    (run stepF tempF dt fs s).2.time.length = fs.length ∧
    (run stepF tempF dt fs s).2.temperature.length = fs.length ∧
    List.Pairwise (· < ·) (run stepF tempF dt fs s).2.time ∧
    (∀ i (h1 : i + 1 < (run stepF tempF dt fs s).2.time.length)
        (h2 : i < (run stepF tempF dt fs s).2.time.length),
      (run stepF tempF dt fs s).2.time.get ⟨i + 1, h1⟩ -
        (run stepF tempF dt fs s).2.time.get ⟨i, h2⟩ = dt) := by
  have ht : (run stepF tempF dt fs s).2.time =
      (List.range fs.length).map (fun i => ((i + 1 : ℕ) : ℚ) * dt) := by
    have h := (runLoop_spec stepF tempF dt fs 0 s ⟨[], []⟩).1
    simpa [run, Nat.zero_add] using h
  have hlen : (run stepF tempF dt fs s).2.time.length = fs.length := by
    rw [ht]; simp
  have htemp : (run stepF tempF dt fs s).2.temperature.length = fs.length := by
    have h := (runLoop_spec stepF tempF dt fs 0 s ⟨[], []⟩).2
    simpa [run] using h
  refine ⟨ht, hlen, htemp, ?_, ?_⟩
  · rw [ht, List.pairwise_map]
    refine (List.pairwise_lt_range fs.length).imp ?_
    intro a b hab
    have hc : ((a + 1 : ℕ) : ℚ) < ((b + 1 : ℕ) : ℚ) := by
      exact_mod_cast Nat.succ_lt_succ hab
    exact mul_lt_mul_of_pos_right hc hdt
  · intro i h1 h2
    have g1 : (run stepF tempF dt fs s).2.time.get ⟨i + 1, h1⟩ =
        ((i + 2 : ℕ) : ℚ) * dt := by
      rw [List.get_eq_getElem]
      simp only [ht, List.getElem_map, List.getElem_range]
    have g2 : (run stepF tempF dt fs s).2.time.get ⟨i, h2⟩ =
        ((i + 1 : ℕ) : ℚ) * dt := by
      rw [List.get_eq_getElem]
      simp only [ht, List.getElem_map, List.getElem_range]
    rw [g1, g2]
    push_cast
    ring

/-- Witness for C6: identity step, zero temperature readout, `dt = 1`, two
steps; the trajectory then has exactly two samples per list. -/
theorem run_trajectory_witness :
    (0 : ℚ) < 1 ∧
    (run (fun _ s => s) (fun _ => 0) 1 [[[0]], [[0]]]
        ⟨[[0]], [[0]]⟩).2.time.length = 2 ∧
    (run (fun _ s => s) (fun _ => 0) 1 [[[0]], [[0]]]
        ⟨[[0]], [[0]]⟩).2.temperature.length = 2 :=
  ⟨by norm_num,
   (run_trajectory (fun _ s => s) (fun _ => 0) 1 [[[0]], [[0]]]
      ⟨[[0]], [[0]]⟩ (by norm_num)).2.1,
   (run_trajectory (fun _ s => s) (fun _ => 0) 1 [[[0]], [[0]]]
      ⟨[[0]], [[0]]⟩ (by norm_num)).2.2.1⟩

/-- C7 fails as stated: `badBoxConfig` has a box axis with min = 1 ≥ 0 =
max, yet `validate_config` accepts it — no configuration error is raised
anywhere on the construction path for an inverted box — and
`LangevinSimulation.__init__` itself builds the particle state without any
validation (shown here producing a state from the same inverted box). -/
theorem validate_config_accepts_inverted_box :
    badBoxConfig.box = some [((1 : ℚ), 0)] ∧ ¬ ((1 : ℚ) < 0) ∧
    validate_config badBoxConfig = Except.ok () ∧
    initSystem [((1 : ℚ), 0)] [[0]] [[0]] = ⟨[[1]], [[0]]⟩ := by
  refine ⟨rfl, by norm_num, rfl, ?_⟩
  simp [initSystem]

set_option maxHeartbeats 1000000 in
/-- C7 amended: input validation lives in `validate_config` on the
configuration path, which succeeds exactly when all seven required keys are
present and `natoms > 0`, `temperature ≥ 0`, `dt > 0` — the box bounds are
never checked — while `__init__` converts the molar mass to a per-particle
mass `mass / AVOGADRO`. -/
theorem validate_config_characterization :
    (∀ c : Config, validate_config c = Except.ok () ↔
      (c.natoms ≠ none ∧ c.mass ≠ none ∧ c.temperature ≠ none ∧
       c.dt ≠ none ∧ c.relaxation_time ≠ none ∧ c.nsteps ≠ none ∧
       c.box ≠ none ∧ 0 < c.natoms.getD 0 ∧ 0 ≤ c.temperature.getD 0 ∧
       0 < c.dt.getD 0)) ∧
    (∀ m : ℚ, mass_per_particle m = m / AVOGADRO) := by
  refine ⟨?_, fun m => rfl⟩
  intro c
  constructor
  · intro h
    unfold validate_config at h
    split_ifs at h with h1 h2 h3 h4 h5 h6 h7 h8 h9 h10
    exact ⟨h1, h2, h3, h4, h5, h6, h7, not_le.mp h8, not_lt.mp h9,
      not_le.mp h10⟩
  · rintro ⟨p1, p2, p3, p4, p5, p6, p7, p8, p9, p10⟩
    unfold validate_config
    rw [if_neg p1, if_neg p2, if_neg p3, if_neg p4, if_neg p5, if_neg p6,
      if_neg p7, if_neg (not_le.mpr p8), if_neg (not_lt.mpr p9),
      if_neg (not_le.mpr p10)]

/-- C8: the verbose progress checkpoint is NOT guarded.  For every
`1 ≤ nsteps < 10`, `nsteps // 10 = 0` and the expression
`step % (nsteps // 10)` raised by `run(nsteps, verbose=True)` divides by
zero at every step, instead of failing cleanly or skipping. -/
theorem verboseCheckpoint_div_by_zero (nsteps step : ℕ)
    (hlo : 1 ≤ nsteps) (hhi : nsteps < 10) :
    verboseCheckpoint nsteps step =
      Except.error "ZeroDivisionError: integer division or modulo by zero" := by
  unfold verboseCheckpoint
  have h : nsteps / 10 = 0 := Nat.div_eq_of_lt hhi
  simp [h]

/-- Witness for C8 at `nsteps = 5`, first loop iteration `step = 1`. -/
theorem verboseCheckpoint_div_by_zero_witness :
    1 ≤ 5 ∧ 5 < 10 ∧
    verboseCheckpoint 5 1 =
      Except.error "ZeroDivisionError: integer division or modulo by zero" :=
  ⟨by norm_num, by norm_num,
   verboseCheckpoint_div_by_zero 5 1 (by norm_num) (by norm_num)⟩

/-- C9: `create_boundary` succeeds exactly on the two variant names
(case-insensitively), returning the matching boundary object, and fails on
every other name with an error message listing the valid options. -/
theorem create_boundary_selection (t : String) (box : List (ℚ × ℚ)) :
    ((∃ b, create_boundary t box = Except.ok b) ↔
      (pyLower t = "reflective" ∨ pyLower t = "periodic")) ∧
    (pyLower t = "reflective" →
      create_boundary t box = Except.ok (Boundary.reflective box)) ∧
    (pyLower t = "periodic" →
      create_boundary t box = Except.ok (Boundary.periodic box)) ∧
    (pyLower t ≠ "reflective" → pyLower t ≠ "periodic" →
      create_boundary t box = Except.error ("Unknown boundary type: " ++ t ++
        ". Available types: [reflective, periodic]")) := by
  unfold create_boundary
  split_ifs with h1 h2 <;> simp_all

/-- Witness for C9: the unknown name Bogus is rejected with the message
listing both options, via the error conjunct of the selection theorem. -/
theorem create_boundary_selection_witness :
    pyLower "Bogus" ≠ "reflective" ∧ pyLower "Bogus" ≠ "periodic" ∧
    create_boundary "Bogus" [] = Except.error ("Unknown boundary type: " ++
      "Bogus" ++ ". Available types: [reflective, periodic]") :=
  ⟨by decide, by decide,
   (create_boundary_selection "Bogus" []).2.2.2 (by decide) (by decide)⟩

/-- Helper: appending frames to a file that starts from `some acc`. -/
theorem foldl_writeFrameTo {α : Type} (l : List α) :
    ∀ acc : List α, l.foldl writeFrameTo (some acc) = some (acc ++ l) := by
  induction l with
  | nil => intro acc; simp
  | cons f fs ih =>
    intro acc
    simp only [List.foldl_cons, writeFrameTo, Option.getD_some]
    rw [ih (acc ++ [f])]
    simp

/-- C10: the dump-file effect of `run` with an `output_file`: any
pre-existing file is deleted first, so the final file contents are exactly
the frames written by this run (and independent of the prior contents);
with no frames written the file simply does not exist. -/
theorem runDumpEffect_fresh {α : Type} (prior : FileState α)
    (frames : List α) :
    runDumpEffect prior frames = runDumpEffect none frames ∧
    (frames ≠ [] → runDumpEffect prior frames = some frames) ∧
    (frames = [] → runDumpEffect prior frames = none) := by
  refine ⟨rfl, ?_, ?_⟩
  · intro hne
    cases frames with
    | nil => exact absurd rfl hne
    | cons f fs =>
      simp only [runDumpEffect, removeIfExists, List.foldl_cons, writeFrameTo,
        Option.getD_none, List.nil_append]
      rw [foldl_writeFrameTo fs [f]]
      simp
  · intro he
    subst he
    rfl

/-- Witness for C10: a prior file holding frames `[1, 2]` is replaced by the
single frame `[7]` written by the run. -/
theorem runDumpEffect_fresh_witness :
    ([7] : List ℕ) ≠ [] ∧ runDumpEffect (some [1, 2]) [7] = some [7] :=
  ⟨by simp, (runDumpEffect_fresh (some [1, 2]) [7]).2.1 (by simp)⟩

end LangevinMD
